import Mathlib

/-!
Verification of the orchestration core of the `puter-docs-gen` repository
against its natural-language specification.

The development shallowly embeds the relevant source code:

* `src/src/hooks/useFileHandler.ts` — the file registry (add, update, toggle,
  pasted-text and scraped-URL ingestion, capacity gate);
* `src/src/hooks/useAI.ts` — the dual-provider orchestrator (readiness gates,
  provider/model switching and persistence, error wrapping);
* `src/src/components/chat/MessageBubble.tsx` (the `useFileExtraction` hook
  bundled in that file) — the processing pipeline (`runProcessingPipeline`,
  `cancelProcessing`).

Asynchronous provider/extractor calls are embedded as explicit outcome
parameters (`Except String α`: a thrown JS error is represented by its
message string).  React `useState` cells become explicit state records, and
each `setCurrentPipeline` call is recorded as one observable snapshot, so a
pipeline run denotes the list of states an observer of the hook can read.
JS string `length` (UTF-16 code units) is modelled by `String.length`
(characters); all concrete inputs used below are ASCII, where the two and
the UTF-8 byte count coincide.  Wall-clock reads (`Date.now()`) are modelled
by an explicit tick counter threaded in call order.
-/

/-! ### Data model: `UploadedFile` (src/src/types/index.ts, lines 1-10) -/

structure UploadedFile where
  id : String
  name : String
  content : String
  type : String
  size : Nat
  lastModified : Nat
  preview : Option String
  isExpanded : Option Bool
deriving DecidableEq

/-- JS truthiness of an optional boolean: `undefined` is falsy. -/
def jsTruthy : Option Bool → Bool
  | some b => b
  | none => false

/-- JS truthiness of a string: the empty string is falsy.  Used to embed
`if (settings.apiKey)`-style guards. -/
def jsStr (s : String) : Bool := !(s == "")

/-! ### Fresh id generation

`generateFileId` is imported by `useFileHandler.ts` from `src/lib/file-utils.ts`,
which is not part of this source tree. -/

/-- Modelled from the spec: `generateFileId` (src/lib/file-utils.ts, absent from
the tree).  §4.3 requires that "every add operation assigns a fresh unique id".
We model the generator as a session counter rendered injectively into the id
string (the concrete rendering is unspecified by the spec; we pick one whose
injectivity is immediate from the length of the suffix). -/
structure IdGen where
  counter : Nat
deriving DecidableEq

/-- The id produced for counter value `k`. -/
def idOfCounter (k : Nat) : String :=
  "file-" ++ String.mk (List.replicate k 'x')

/-- Modelled from the spec: one call of the fresh-id generator returns the id
for the current counter and advances the counter. -/
def generateFileId (g : IdGen) : String × IdGen :=
  (idOfCounter g.counter, { counter := g.counter + 1 })

theorem idOfCounter_injective : Function.Injective idOfCounter := by
  intro a b h
  have hlen : (idOfCounter a).length = (idOfCounter b).length := by rw [h]
  simpa [idOfCounter, String.length_append, String.length] using hlen

/-! ### FileRegistry operations (src/src/hooks/useFileHandler.ts) -/

/-- `addFile` (useFileHandler.ts lines 41-106).  The capacity gate throws
before any state is touched; afterwards the asynchronous
`processFileUpload(file)` either yields an uploaded record, appended to the
registry, or fails, in which case the failure is caught, recorded in the
hook error cell, and the registry is left unchanged.  The `maxTotalFiles`
parameter stands for the `MAX_TOTAL_FILES` constant of src/lib/file-utils.ts
(absent from the tree); the per-file upload-progress cell is UI state and is
not modelled.  Result: `.error msg` when the capacity check throws to the
caller, otherwise `.ok (newFiles, softError)`. -/
def addFile (maxTotalFiles : Nat) (files : List UploadedFile)
    (uploaded : Except String UploadedFile) :
    Except String (List UploadedFile × Option String) :=
  if files.length ≥ maxTotalFiles then
    Except.error ("Maximum " ++ toString maxTotalFiles ++ " files allowed")
  else
    match uploaded with
    | Except.ok f => Except.ok (files ++ [f], none)
    | Except.error msg => Except.ok (files, some msg)

/-- The record built by `addTextContent` (useFileHandler.ts lines 128-138).
`filename || default` uses JS string truthiness. -/
def mkPastedFile (g : IdGen) (content : String) (filename : Option String)
    (now : Nat) : UploadedFile :=
  { id := (generateFileId g).1
    name :=
      match filename with
      | some s => if jsStr s then s else "pasted-content-" ++ toString now ++ ".txt"
      | none => "pasted-content-" ++ toString now ++ ".txt"
    content := content
    type := "text"
    size := content.length
    lastModified := now
    preview := some ((content.take 200) ++ (if content.length > 200 then "..." else ""))
    isExpanded := some false }

/-- `addTextContent` (useFileHandler.ts lines 126-144): build a text record
from pasted content and append it. -/
def addTextContent (g : IdGen) (files : List UploadedFile) (content : String)
    (filename : Option String) (now : Nat) : List UploadedFile × IdGen :=
  (files ++ [mkPastedFile g content filename now], (generateFileId g).2)

/-- `ScrapedUrl` (src/src/types/index.ts lines 48-53). -/
structure ScrapedUrl where
  url : String
  title : String
  content : String
  timestamp : Nat
deriving DecidableEq

/-- The record built by `addScrapedUrl` (useFileHandler.ts lines 234-243)
from the result of the asynchronous `scrapeUrl(url)`: the stored content
wraps the scraped body in a title/source header, while `size` is computed
from `scraped.content.length` alone. -/
def mkScrapedFile (g : IdGen) (url : String) (s : ScrapedUrl) (now : Nat) :
    UploadedFile :=
  { id := (generateFileId g).1
    name := s.title ++ ".md"
    content := "# " ++ s.title ++ "\n\nSource: " ++ url ++ "\n\n" ++ s.content
    type := "markdown"
    size := s.content.length
    lastModified := now
    preview := some ((s.content.take 200) ++ "...")
    isExpanded := some false }

/-- `addScrapedUrl` continued: on scrape failure the error is recorded and
rethrown with its message and the registry is unchanged; on success the new
record is appended. -/
def addScrapedUrl (g : IdGen) (files : List UploadedFile) (url : String)
    (scraped : Except String ScrapedUrl) (now : Nat) :
    Except String (List UploadedFile × IdGen) :=
  match scraped with
  | Except.error msg => Except.error msg
  | Except.ok s => Except.ok (files ++ [mkScrapedFile g url s now], (generateFileId g).2)

/-- A partial patch of an `UploadedFile` (`Partial<UploadedFile>` in TS):
every field optionally present; an optional TS field carries its own
optional value. -/
structure FilePatch where
  id : Option String
  name : Option String
  content : Option String
  type : Option String
  size : Option Nat
  lastModified : Option Nat
  preview : Option (Option String)
  isExpanded : Option (Option Bool)
deriving DecidableEq

/-- The empty patch. -/
def FilePatch.empty : FilePatch :=
  { id := none, name := none, content := none, type := none, size := none,
    lastModified := none, preview := none, isExpanded := none }

/-- JS object spread `{ ...file, ...updates }`: present patch fields
overwrite. -/
def applyPatch (f : UploadedFile) (p : FilePatch) : UploadedFile :=
  { id := p.id.getD f.id
    name := p.name.getD f.name
    content := p.content.getD f.content
    type := p.type.getD f.type
    size := p.size.getD f.size
    lastModified := p.lastModified.getD f.lastModified
    preview := p.preview.getD f.preview
    isExpanded := p.isExpanded.getD f.isExpanded }

/-- `updateFile` (useFileHandler.ts lines 154-162). -/
def updateFile (files : List UploadedFile) (fileId : String) (updates : FilePatch) :
    List UploadedFile :=
  files.map (fun f => if f.id = fileId then applyPatch f updates else f)

/-- `toggleFileExpansion` (useFileHandler.ts lines 164-172):
`{ ...file, isExpanded: !file.isExpanded }`, where `!` applies JS truthiness
to the optional flag. -/
def toggleFileExpansion (files : List UploadedFile) (fileId : String) :
    List UploadedFile :=
  files.map (fun f =>
    if f.id = fileId then { f with isExpanded := some (!(jsTruthy f.isExpanded)) } else f)

/-! ### Dual-provider orchestrator (src/src/hooks/useAI.ts) -/

/-- The two providers (`"gemini" | "puter"` in useAI.ts line 10). -/
inductive Service where
  | gemini
  | puter
deriving DecidableEq

/-- `GeminiModel` (src/src/types/index.ts lines 20-24). -/
structure GeminiModel where
  name : String
  displayName : String
  description : Option String
deriving DecidableEq

/-- `PuterModel`: its declaration lives in the extended types module, absent
from the tree; `useAI.ts` reads only its `name` field
(`availablePuterModels[0].name`, line 196), which is all we model. -/
structure PuterModel where
  name : String
deriving DecidableEq

/-- The `useState` cells of `useAI` that the modelled operations read or
write (useAI.ts lines 8-19).  The `isLoading`/`error` UI cells are not
modelled. -/
structure AIState where
  selectedService : Service
  isGeminiReady : Bool
  isPuterReady : Bool
  availableModels : List GeminiModel
  availablePuterModels : List PuterModel
  currentModel : String
deriving DecidableEq

/-- The stored settings record as consumed by `useAI.ts` (the storage
wrapper `src/lib/storage.ts` is an external collaborator; per §6 it is a
flat record with merge-set writes).  String fields use `""` for a
missing/falsy value, mirroring the JS truthiness tests in the hook. -/
structure StoredSettings where
  apiKey : String
  selectedModel : String
  selectedService : Option Service
  isApiKeyValid : Bool
  isPuterConnected : Bool
  availableModels : List GeminiModel
  availablePuterModels : List PuterModel
deriving DecidableEq

/-- The combined hook state: in-memory cells plus the persisted record
behind `storage.saveSettings` / `storage.getSettings`. -/
structure UseAI where
  ai : AIState
  stored : StoredSettings
deriving DecidableEq

/-- The initial `useState` values of the hook (useAI.ts lines 8-19). -/
def defaultAIState : AIState :=
  { selectedService := Service.gemini
    isGeminiReady := false
    isPuterReady := false
    availableModels := []
    availablePuterModels := []
    currentModel := "gpt-4o-mini" }

/-- The mount effect of `useAI` (useAI.ts lines 22-53): re-derive the
in-memory state from the stored settings, i.e. what a reload observes.
`puterAvailable` stands for `puterService.isAvailable()`; the asynchronous
`loadPuterModels()` catalog fetch it triggers is a further network call
whose result does not affect the selected service/model and is not
modelled.  The `if (settings.availableModels)` guard is embedded as an
unconditional copy, since the stored record is modelled with the catalog
field always present (a present JS array is truthy even when empty). -/
def initFromSettings (st : StoredSettings) (puterAvailable : Bool) : AIState :=
  let s0 := defaultAIState
  let s1 :=
    if jsStr st.apiKey then
      let sa := { s0 with isGeminiReady := true }
      let sb :=
        if jsStr st.selectedModel ∧ st.selectedService = some Service.gemini then
          { sa with currentModel := st.selectedModel }
        else sa
      { sb with availableModels := st.availableModels }
    else s0
  let s2 := if puterAvailable then { s1 with isPuterReady := true } else s1
  match st.selectedService with
  | none => s2
  | some svc =>
    let s3 := { s2 with selectedService := svc }
    if svc = Service.puter ∧ jsStr st.selectedModel then
      { s3 with currentModel := st.selectedModel }
    else s3

/-- `switchService` (useAI.ts lines 187-200): set the active service,
persist only the `selectedService` field, and reset the in-memory current
model to the first entry of the new service's cached catalog when that
catalog is non-empty. -/
def switchService (st : UseAI) (service : Service) : UseAI :=
  let ai1 := { st.ai with selectedService := service }
  let stored1 := { st.stored with selectedService := some service }
  let ai2 :=
    match service with
    | Service.gemini =>
      match st.ai.availableModels with
      | m :: _ => { ai1 with currentModel := m.name }
      | [] => ai1
    | Service.puter =>
      match st.ai.availablePuterModels with
      | m :: _ => { ai1 with currentModel := m.name }
      | [] => ai1
  { ai := ai2, stored := stored1 }

/-- `switchModel` (useAI.ts lines 202-213): set the in-memory model and
persist `selectedModel` (the `geminiService.setModel` side effect on the
external SDK wrapper is not modelled). -/
def switchModel (st : UseAI) (modelName : String) : UseAI :=
  { ai := { st.ai with currentModel := modelName },
    stored := { st.stored with selectedModel := modelName } }

/-- Readiness of the active service (`useAI.ts` lines 235-236 and 378). -/
def activeReady (s : AIState) : Bool :=
  match s.selectedService with
  | Service.gemini => s.isGeminiReady
  | Service.puter => s.isPuterReady

deriving instance DecidableEq for Except

/-- Outcome of a generation-family call: the value returned to (or the
message thrown at) the caller, together with whether the active provider's
generation capability was actually invoked. -/
structure GenOutcome where
  result : Except String String
  providerInvoked : Bool
deriving DecidableEq

/-- Environment of one `generateResponse` call: availability of the Puter
runtime and the outcomes the two provider generation capabilities would
produce if invoked. -/
structure GenEnv where
  puterAvailable : Bool
  geminiGenerate : Except String String
  puterGenerate : Except String String
deriving DecidableEq

/-- `generateResponse` (useAI.ts lines 233-277).  The readiness gate throws
a service-specific message before any provider call; inside the `try`, a
Puter-availability re-check throws (and is caught by the same `catch`), and
any provider failure is caught and re-thrown as the fixed message
`"Failed to generate response"`. -/
def generateResponse (s : AIState) (env : GenEnv) : GenOutcome :=
  if !(activeReady s) then
    { result := Except.error
        (match s.selectedService with
         | Service.gemini => "Gemini service not ready. Please set API key first."
         | Service.puter => "Puter service not ready. Please connect to Puter first.")
      providerInvoked := false }
  else
    match s.selectedService with
    | Service.gemini =>
      match env.geminiGenerate with
      | Except.ok r => { result := Except.ok r, providerInvoked := true }
      | Except.error _ =>
        { result := Except.error "Failed to generate response", providerInvoked := true }
    | Service.puter =>
      if !env.puterAvailable then
        { result := Except.error "Failed to generate response", providerInvoked := false }
      else
        match env.puterGenerate with
        | Except.ok r => { result := Except.ok r, providerInvoked := true }
        | Except.error _ =>
          { result := Except.error "Failed to generate response", providerInvoked := true }

/-- `processFiles` (useAI.ts lines 279-321).  `call` is the outcome of the
active provider's `processFilesForCompilation`. -/
def processFiles (s : AIState) (call : Except String String) : GenOutcome :=
  if !(activeReady s) then
    { result := Except.error "AI service not ready", providerInvoked := false }
  else
    match call with
    | Except.ok r => { result := Except.ok r, providerInvoked := true }
    | Except.error _ =>
      { result := Except.error "Failed to process files", providerInvoked := true }

/-- `condenseContent` (useAI.ts lines 323-355).  `call` is the outcome of
the active provider's `condenseForLLM`. -/
def condenseContent (s : AIState) (call : Except String String) : GenOutcome :=
  if !(activeReady s) then
    { result := Except.error "AI service not ready", providerInvoked := false }
  else
    match call with
    | Except.ok r => { result := Except.ok r, providerInvoked := true }
    | Except.error _ =>
      { result := Except.error "Failed to condense content", providerInvoked := true }

/-! ### Processing pipeline
(`useFileExtraction` in src/src/components/chat/MessageBubble.tsx) -/

/-- Step statuses (spec §3; the full TS union of the extended types module,
absent from the tree — the code assigns `pending`, `running`, `complete`
and `error`). -/
inductive StepStatus where
  | pending
  | running
  | complete
  | error
  | skipped
deriving DecidableEq

/-- Run statuses (spec §3; the code assigns `running`, `complete`, `error`
and `cancelled`). -/
inductive RunStatus where
  | idle
  | running
  | complete
  | error
  | cancelled
deriving DecidableEq

/-- `CombinationResult`: declared in the extended types module (absent from
the tree) and produced by the external `fileTextExtractor.combineFiles`;
`runProcessingPipeline` only stores it opaquely on the combine step, so we
model it by its content field alone. -/
structure CombinationResult where
  content : String
deriving DecidableEq

/-- `FileAnalysis`: declared in the extended types module (absent from the
tree); `analyzeFiles` only stores it opaquely in its result map. -/
structure FileAnalysis where
  summary : String
deriving DecidableEq

/-- One pipeline step (`ProcessingPipelineStep`); fields as used by
`runProcessingPipeline` (MessageBubble.tsx lines 392-495).  Progress is an
exact rational, as JS computes `((j + 1) / files.length) * 100` in floating
point without rounding for the small counts involved. -/
structure PipelineStep where
  id : String
  name : String
  description : String
  status : StepStatus
  progress : ℚ
  startTime : Option Nat
  endTime : Option Nat
  error : Option String
  result : Option CombinationResult
deriving DecidableEq

/-- The pipeline run record (`ProcessingPipeline`), fields as used by
`runProcessingPipeline` / `cancelProcessing` / `getProcessingSummary`. -/
structure Pipeline where
  id : String
  name : String
  files : List UploadedFile
  steps : List PipelineStep
  overallProgress : ℚ
  status : RunStatus
  startTime : Option Nat
  endTime : Option Nat
deriving DecidableEq

/-- The `options` argument of `runProcessingPipeline` (lines 372-380): three
stage flags plus presence of the optional `combinationOptions`, `aiModel`
and `aiService` fields.  The payloads of `combinationOptions`, `aiModel` and
`aiService` are consumed only by the external extractor/AI collaborators,
so only their presence is modelled. -/
structure PipelineOptions where
  extractText : Bool
  analyzeFiles : Bool
  combineFiles : Bool
  hasCombinationOptions : Bool
  hasAiModel : Bool
  hasAiService : Bool
deriving DecidableEq

/-- Outcomes of the external asynchronous calls one run can make:
per-file `fileTextExtractor.extractText` outcomes (as surfaced by
`extractTextFromFile`, which rethrows the message), per-file
`enhancedAI.analyzeFileContent` outcomes, and the
`fileTextExtractor.combineFiles` outcome (as surfaced by `combineFiles`,
which rethrows the message). -/
structure PipelineEnv where
  extracts : List (Except String String)
  analyses : List (Except String FileAnalysis)
  combine : Except String CombinationResult
deriving DecidableEq

/-- The freshly constructed extract step (lines 393-401). -/
def extractStepInit : PipelineStep :=
  { id := "extract", name := "Extract Text",
    description := "Extract text content from files",
    status := StepStatus.pending, progress := 0,
    startTime := none, endTime := none, error := none, result := none }

/-- The freshly constructed analyze step (lines 403-411). -/
def analyzeStepInit : PipelineStep :=
  { id := "analyze", name := "Analyze Files",
    description := "Analyze files with AI",
    status := StepStatus.pending, progress := 0,
    startTime := none, endTime := none, error := none, result := none }

/-- The freshly constructed combine step (lines 413-421). -/
def combineStepInit : PipelineStep :=
  { id := "combine", name := "Combine Files",
    description := "Combine files into single document",
    status := StepStatus.pending, progress := 0,
    startTime := none, endTime := none, error := none, result := none }

/-- The declared step list of a run (lines 392-421). -/
def mkSteps (opts : PipelineOptions) : List PipelineStep :=
  (if opts.extractText then [extractStepInit] else []) ++
  (if opts.analyzeFiles then [analyzeStepInit] else []) ++
  (if opts.combineFiles then [combineStepInit] else [])

/-- Overall progress after `k` of `n` steps: `(k / n) * 100` (line 473). -/
def stepOverall (n k : Nat) : ℚ := ((k : ℚ) / (n : ℚ)) * 100

/-- The extraction loop of the extract step (lines 437-442): files are
processed in order; after the `j`-th success the step progress becomes
`((j + 1) / m) * 100` and a snapshot is published; the first failure throws
out of the loop.  Returns the published progress values and the thrown
message, if any. -/
def extractLoopAux (m : Nat) (j : Nat) :
    List (Except String String) → List ℚ × Option String
  | [] => ([], none)
  | o :: rest =>
    match o with
    | Except.error e => ([], some e)
    | Except.ok _ =>
      let q : ℚ := (((j + 1 : Nat) : ℚ) / (m : ℚ)) * 100
      let r := extractLoopAux m (j + 1) rest
      (q :: r.1, r.2)

/-- One extraction outcome per file: the environment list aligned to the
file count (the run awaits exactly one `extractTextFromFile` per file). -/
def alignedExtracts (env : PipelineEnv) (m : Nat) : List (Except String String) :=
  (List.range m).map (fun j => env.extracts.getD j (Except.ok ""))

/-- The message thrown out of the extract step body, if any. -/
def extractError (env : PipelineEnv) (m : Nat) : Option String :=
  (extractLoopAux m 0 (alignedExtracts env m)).2

/-- `analyzeFiles` (MessageBubble.tsx lines 253-314): iterates the files,
awaiting one provider analysis per file; each per-file failure is caught
inside the loop (logged and toasted) and never rethrown, so the function
returns the map of successful analyses and cannot throw on a provider
failure. -/
def analyzeFilesRun (files : List UploadedFile)
    (outcomes : List (Except String FileAnalysis)) : List (String × FileAnalysis) :=
  (files.zip outcomes).foldl
    (fun acc fo =>
      match fo.2 with
      | Except.ok a => acc ++ [(fo.1.id, a)]
      | Except.error _ => acc) []

/-- Result of one step body (the `switch` at lines 435-462): the per-file
progress snapshots it publishes, and either the thrown message or the final
step progress together with the stored combine result. -/
structure BodyResult where
  snaps : List ℚ
  outcome : Except String (ℚ × Option CombinationResult)
deriving DecidableEq

/-- The body of the step with id `sid` (lines 435-462), given the file count
`m` and the step's current progress `q0`:
* `"extract"`: the per-file loop; on success the progress stands at 100
  unless there were no files (the loop body never ran);
* `"analyze"`: runs the (non-throwing) `analyzeFiles` when both `aiModel`
  and `aiService` are present, then sets progress 100 either way;
* `"combine"`: when `combinationOptions` is present, the external combine
  call either throws or yields the stored result and progress 100; absent
  options give a no-op completion at progress 100;
* any other id falls through the `switch` unchanged. -/
def stepBody (opts : PipelineOptions) (env : PipelineEnv) (m : Nat)
    (sid : String) (q0 : ℚ) : BodyResult :=
  if sid = "extract" then
    let r := extractLoopAux m 0 (alignedExtracts env m)
    match r.2 with
    | some e => { snaps := r.1, outcome := Except.error e }
    | none => { snaps := r.1, outcome := Except.ok ((if m = 0 then q0 else 100), none) }
  else if sid = "analyze" then
    { snaps := [], outcome := Except.ok (100, none) }
  else if sid = "combine" then
    if opts.hasCombinationOptions then
      match env.combine with
      | Except.error e => { snaps := [], outcome := Except.error e }
      | Except.ok r => { snaps := [], outcome := Except.ok (100, some r) }
    else { snaps := [], outcome := Except.ok (100, none) }
  else { snaps := [], outcome := Except.ok (q0, none) }

/-- The message a step body would throw, independent of its current
progress. -/
def bodyError (opts : PipelineOptions) (env : PipelineEnv) (m : Nat)
    (sid : String) : Option String :=
  match (stepBody opts env m sid 0).outcome with
  | Except.error e => some e
  | Except.ok _ => none

/-- Position and message of the first step of `l` whose body throws. -/
def firstFailure (opts : PipelineOptions) (env : PipelineEnv) (m : Nat) :
    List PipelineStep → Option (Nat × String)
  | [] => none
  | s :: rest =>
    match bodyError opts env m s.id with
    | some e => some (0, e)
    | none => (firstFailure opts env m rest).map (fun ke => (ke.1 + 1, ke.2))

/-- Step at lines 428-430: mark the step running with its start time. -/
def runningStep (step : PipelineStep) (t : Nat) : PipelineStep :=
  { step with status := StepStatus.running, startTime := some t }

/-- Lines 458-465: on body success, mark the step complete with its final
progress, stored result (combine only) and end time. -/
def completedStep (step : PipelineStep) (pr : ℚ × Option CombinationResult)
    (t : Nat) : PipelineStep :=
  { step with
      status := StepStatus.complete
      progress := pr.1
      result := (match pr.2 with | some r => some r | none => step.result)
      endTime := some t }

/-- Lines 466-469: on body failure, mark the step errored with the thrown
message and end time (its progress stands at the last published value). -/
def failedStep (step : PipelineStep) (q : ℚ) (msg : String) (t : Nat) :
    PipelineStep :=
  { step with
      status := StepStatus.error
      progress := q
      error := some msg
      endTime := some t }

/-- Replace the published step list of a snapshot. -/
def withSteps (pl : Pipeline) (steps : List PipelineStep) : Pipeline :=
  { pl with steps := steps }

/-- Line 473: recompute overall progress after the `k`-th of `n` steps. -/
def advanceOverall (pl : Pipeline) (n k : Nat) : Pipeline :=
  { pl with overallProgress := stepOverall n k }

/-- Lines 484-485: the run fails. -/
def markError (pl : Pipeline) (t : Nat) : Pipeline :=
  { pl with status := RunStatus.error, endTime := some t }

/-- Lines 477-478: the run completes. -/
def markComplete (pl : Pipeline) (before : List PipelineStep) (t : Nat) : Pipeline :=
  { pl with steps := before, status := RunStatus.complete, endTime := some t }

/-- The step loop of `runProcessingPipeline` (lines 427-475) together with
its epilogues (lines 477-492).  `before` holds the already-executed steps,
`rest` the remaining ones, `n` the total step count and `t` the current
clock tick.  Returns the list of `setCurrentPipeline` snapshots published
from this point on, the final pipeline value, and the advanced clock. -/
def runLoop (opts : PipelineOptions) (env : PipelineEnv) (n : Nat) :
    Pipeline → List PipelineStep → List PipelineStep → Nat →
    List Pipeline × Pipeline × Nat
  | pl, before, [], t =>
    let done := markComplete pl before t
    ([done], done, t + 1)
  | pl, before, step :: rest, t =>
    let running := runningStep step t
    let snap1 := withSteps pl (before ++ running :: rest)
    let body := stepBody opts env pl.files.length step.id step.progress
    let bodySnaps := body.snaps.map
      (fun q => withSteps pl (before ++ { running with progress := q } :: rest))
    match body.outcome with
    | Except.error msg =>
      let errStep := failedStep running (body.snaps.getLastD running.progress) msg (t + 1)
      let snapErr := withSteps (markError pl (t + 2)) (before ++ errStep :: rest)
      (snap1 :: (bodySnaps ++ [snapErr]), snapErr, t + 3)
    | Except.ok pr =>
      let doneStep := completedStep running pr (t + 1)
      let pl2 := advanceOverall pl n (before.length + 1)
      let snap2 := withSteps pl2 (before ++ doneStep :: rest)
      let r := runLoop opts env n pl2 (before ++ [doneStep]) rest (t + 2)
      (snap1 :: (bodySnaps ++ snap2 :: r.1), r.2.1, r.2.2)

/-- `runProcessingPipeline` (lines 370-495): build the run record, publish
it, then execute the steps.  Returns the full list of observable snapshots
(in publication order) and the final pipeline value (which is also the
value returned to — or, on error, carried by the exception thrown at — the
caller). -/
def pipelineInit (opts : PipelineOptions) (files : List UploadedFile)
    (t0 : Nat) : Pipeline :=
  { id := "pipeline_" ++ toString t0
    name := "File Processing Pipeline"
    files := files
    steps := mkSteps opts
    overallProgress := 0
    status := RunStatus.running
    startTime := some t0
    endTime := none }

def runProcessingPipeline (opts : PipelineOptions) (env : PipelineEnv)
    (files : List UploadedFile) (t0 : Nat) : List Pipeline × Pipeline :=
  let r := runLoop opts env (mkSteps opts).length (pipelineInit opts files t0)
    [] (mkSteps opts) (t0 + 1)
  (pipelineInit opts files t0 :: r.1, r.2.1)

/-- `cancelProcessing` (MessageBubble.tsx lines 500-515) applied to the
currently published pipeline state: unconditionally mark it cancelled with
an end timestamp.  The run loop itself never reads this state. -/
def cancelProcessing (p : Pipeline) (t : Nat) : Pipeline :=
  { p with status := RunStatus.cancelled, endTime := some t }

/-- A default pipeline value, used only to total list lookups below. -/
def emptyPipe : Pipeline :=
  { id := "", name := "", files := [], steps := [], overallProgress := 0,
    status := RunStatus.idle, startTime := none, endTime := none }

/-- The state sequence an observer of the hook reads when a cancel request
arrives right after the `k`-th snapshot of an in-flight run: the cancelled
state is published, after which the run loop — which never consults it —
keeps publishing its own snapshots. -/
def observedWithCancel (trace : List Pipeline) (k : Nat) (t : Nat) : List Pipeline :=
  trace.take (k + 1) ++ cancelProcessing (trace.getD k emptyPipe) t :: trace.drop (k + 1)

/-! ### Concrete sample inputs used by witnesses and counterexamples -/

/-- UTF-8 byte length of a string (the spec's "byte length of content"). -/
def byteLength (s : String) : Nat :=
  s.data.foldl (fun n c => n + c.utf8Size) 0

/-- Sample file A (10 bytes of content). -/
def fileA : UploadedFile :=
  { id := "a", name := "a.txt", content := "aaaaaaaaaa", type := "text",
    size := 10, lastModified := 0, preview := none, isExpanded := some false }

/-- Sample file B (20 bytes of content). -/
def fileB : UploadedFile :=
  { id := "b", name := "b.txt", content := "bbbbbbbbbbbbbbbbbbbb", type := "text",
    size := 20, lastModified := 0, preview := none, isExpanded := some true }

/-- Sample file C (5 bytes of content). -/
def fileC : UploadedFile :=
  { id := "c", name := "c.txt", content := "ccccc", type := "text",
    size := 5, lastModified := 0, preview := none, isExpanded := some false }

/-- A file record whose optional `isExpanded` flag is absent, as the
`UploadedFile` type permits (`isExpanded?: boolean`). -/
def fileNoFlag : UploadedFile :=
  { id := "a", name := "f.txt", content := "", type := "text",
    size := 0, lastModified := 0, preview := none, isExpanded := none }

/-- A sample patch renaming a file. -/
def patchRename : FilePatch :=
  { FilePatch.empty with name := some "renamed.txt" }

/-- A sample orchestrator state: Gemini active with persisted model
"gemini-2.0-flash", both providers ready, and a cached Puter catalog headed
by "gpt-4o-mini". -/
def sampleSwitchState : UseAI :=
  ⟨{ selectedService := Service.gemini, isGeminiReady := true,
     isPuterReady := true, availableModels := [],
     availablePuterModels := [⟨"gpt-4o-mini"⟩],
     currentModel := "gemini-2.0-flash" },
   { apiKey := "k", selectedModel := "gemini-2.0-flash",
     selectedService := some Service.gemini, isApiKeyValid := true,
     isPuterConnected := true, availableModels := [],
     availablePuterModels := [⟨"gpt-4o-mini"⟩] }⟩

/-- The same orchestrator state with no cached Puter catalog. -/
def sampleSwitchStateNoCatalog : UseAI :=
  ⟨{ selectedService := Service.gemini, isGeminiReady := true,
     isPuterReady := true, availableModels := [],
     availablePuterModels := [],
     currentModel := "gemini-2.0-flash" },
   { apiKey := "k", selectedModel := "gemini-2.0-flash",
     selectedService := some Service.gemini, isApiKeyValid := true,
     isPuterConnected := true, availableModels := [],
     availablePuterModels := [] }⟩

/-- Options enabling only the extract stage. -/
def optsExtractOnly : PipelineOptions := ⟨true, false, false, false, false, false⟩

/-- Options enabling all three stages with all stage options supplied. -/
def optsAllStages : PipelineOptions := ⟨true, true, true, true, true, true⟩

/-- Options enabling no stage at all. -/
def optsNoStages : PipelineOptions := ⟨false, false, false, false, false, false⟩

/-- An environment where every external call succeeds. -/
def envAllOk : PipelineEnv :=
  ⟨[Except.ok "text"], [Except.ok ⟨"summary"⟩], Except.ok ⟨"doc"⟩⟩

/-- An environment where the provider analysis call throws. -/
def envAnalyzeFails : PipelineEnv :=
  ⟨[Except.ok "text"], [Except.error "Provider call failed"], Except.ok ⟨"doc"⟩⟩

/-- An environment where the external combine call throws. -/
def envCombineFails : PipelineEnv :=
  ⟨[Except.ok "text"], [Except.ok ⟨"summary"⟩], Except.error "combine blew up"⟩

/-! ## Theorems -/

/-! ### C6 — FileRegistry capacity gate -/

/-- C6: for every registry already holding at least the configured maximum
number of files, `addFile` fails with the capacity error naming the limit
and no registry update is produced (no partial add); below the maximum a
successful upload appends exactly the new record. -/
theorem C6_addFile_capacity (maxTotalFiles : Nat) (files : List UploadedFile)
    (uploaded : Except String UploadedFile) :
    (files.length ≥ maxTotalFiles →
      addFile maxTotalFiles files uploaded =
        Except.error ("Maximum " ++ toString maxTotalFiles ++ " files allowed")) ∧
    (files.length < maxTotalFiles → ∀ f,
      addFile maxTotalFiles files (Except.ok f) = Except.ok (files ++ [f], none)) := by
  constructor
  · intro h
    simp [addFile, h]
  · intro h f
    simp [addFile, Nat.not_le.mpr h]

/-- C6 witness: with maximum 2, adding A then B succeeds and the registry
is exactly [A, B]; adding C then fails with the capacity error and no
updated registry is produced. -/
theorem C6_addFile_capacity_witness :
    addFile 2 [] (Except.ok fileA) = Except.ok ([fileA], none) ∧
    addFile 2 [fileA] (Except.ok fileB) = Except.ok ([fileA, fileB], none) ∧
    addFile 2 [fileA, fileB] (Except.ok fileC) =
      Except.error ("Maximum " ++ toString 2 ++ " files allowed") := by
  refine ⟨?_, ?_, ?_⟩
  · exact (C6_addFile_capacity 2 [] (Except.ok fileA)).2 (by decide) fileA
  · exact (C6_addFile_capacity 2 [fileA] (Except.ok fileB)).2 (by decide) fileB
  · exact (C6_addFile_capacity 2 [fileA, fileB] (Except.ok fileC)).1 (by decide)

/-! ### C8 — sizes and ids at ingestion -/

set_option maxRecDepth 8192

/-- C8 counterexample: a scraped-URL record whose body is "hello" (5 bytes)
stores a 21-byte content wrapped in the title/source header, yet its `size`
attribute is 5 — at creation, `size` does not equal the byte length of the
stored content. -/
theorem C8_scraped_size_counterexample :
    mkScrapedFile ⟨0⟩ "u" ⟨"u", "T", "hello", 0⟩ 5 =
      ⟨"file-", "T.md", "# T\n\nSource: u\n\nhello", "markdown", 5, 5,
        some "hello...", some false⟩ ∧
    byteLength "# T\n\nSource: u\n\nhello" = 21 ∧
    (mkScrapedFile ⟨0⟩ "u" ⟨"u", "T", "hello", 0⟩ 5).size ≠
      byteLength (mkScrapedFile ⟨0⟩ "u" ⟨"u", "T", "hello", 0⟩ 5).content := by
  refine ⟨by decide, by decide, by decide⟩

/-- C8 (amended): at creation, a pasted-text record's `size` equals the
length of its stored content, while a scraped-URL record's `size` equals
the length of the scraped body only — strictly smaller than its stored
(header-wrapped) content; both ingestion operations append exactly one
record carrying the generator's current id, and the modelled fresh-id
generator never produces the same id for two distinct counter values, so
ids are not reused within a session. -/
theorem C8_sizes_and_ids (g : IdGen) (files : List UploadedFile)
    (content : String) (filename : Option String) (url : String)
    (s : ScrapedUrl) (now : Nat) :
    (mkPastedFile g content filename now).size =
      (mkPastedFile g content filename now).content.length ∧
    (mkScrapedFile g url s now).size = s.content.length ∧
    (mkScrapedFile g url s now).size < (mkScrapedFile g url s now).content.length ∧
    (mkPastedFile g content filename now).id = idOfCounter g.counter ∧
    (mkScrapedFile g url s now).id = idOfCounter g.counter ∧
    addTextContent g files content filename now =
      (files ++ [mkPastedFile g content filename now], ⟨g.counter + 1⟩) ∧
    addScrapedUrl g files url (Except.ok s) now =
      Except.ok (files ++ [mkScrapedFile g url s now], ⟨g.counter + 1⟩) ∧
    (∀ k k', k ≠ k' → idOfCounter k ≠ idOfCounter k') := by
  refine ⟨rfl, rfl, ?_, rfl, rfl, rfl, rfl, ?_⟩
  · show s.content.length < ("# " ++ s.title ++ "\n\nSource: " ++ url ++ "\n\n" ++ s.content).length
    simp only [String.length_append]
    have h2 : ("# " : String).length = 2 := rfl
    have h10 : ("\n\nSource: " : String).length = 10 := rfl
    have hnn : ("\n\n" : String).length = 2 := rfl
    omega
  · intro k k' hk h
    exact hk (idOfCounter_injective h)

/-- C8 witness: concrete pasted and scraped ingestions at counter 0, with
the id-freshness conjunct instantiated at counters 0 and 1. -/
theorem C8_sizes_and_ids_witness :
    (mkPastedFile ⟨0⟩ "hi" none 7).size = 2 ∧
    (mkScrapedFile ⟨1⟩ "u" ⟨"u", "T", "hello", 0⟩ 7).size <
      (mkScrapedFile ⟨1⟩ "u" ⟨"u", "T", "hello", 0⟩ 7).content.length ∧
    idOfCounter 0 ≠ idOfCounter 1 := by
  have h := C8_sizes_and_ids ⟨1⟩ [] "hi" none "u" ⟨"u", "T", "hello", 0⟩ 7
  exact ⟨by decide, h.2.2.1, h.2.2.2.2.2.2.2 0 1 (by decide)⟩

/-! ### C9 — updateFile frame property -/

/-- C9: `updateFile` preserves the list's length and order; position-wise,
the file at index `i` is patched exactly when its id equals the given id
and is returned unchanged otherwise; and when no file carries the given id
the whole list is unchanged. -/
theorem C9_updateFile_frame (files : List UploadedFile) (fileId : String)
    (updates : FilePatch) :
    (updateFile files fileId updates).length = files.length ∧
    (∀ i (h : i < files.length),
      (updateFile files fileId updates).get ⟨i, by simpa [updateFile] using h⟩ =
        (if (files.get ⟨i, h⟩).id = fileId then applyPatch (files.get ⟨i, h⟩) updates
         else files.get ⟨i, h⟩)) ∧
    ((∀ f ∈ files, f.id ≠ fileId) → updateFile files fileId updates = files) := by
  refine ⟨by simp [updateFile], ?_, ?_⟩
  · intro i h
    simp [updateFile]
  · intro h
    have hcong : ∀ f ∈ files,
        (if f.id = fileId then applyPatch f updates else f) = f := by
      intro f hf
      simp [h f hf]
    calc files.map (fun f => if f.id = fileId then applyPatch f updates else f)
        = files.map id := List.map_congr_left hcong
      _ = files := List.map_id files

/-- C9 witness: patching the file with id "b" in [A, B] leaves A (index 0)
unchanged, and patching a list containing no file with id "x" leaves the
list unchanged. -/
theorem C9_updateFile_frame_witness :
    (updateFile [fileA, fileB] "b" patchRename).get ⟨0, by decide⟩ = fileA ∧
    updateFile [fileA, fileB] "x" patchRename = [fileA, fileB] := by
  constructor
  · have h2 := (C9_updateFile_frame [fileA, fileB] "b" patchRename).2.1 0 (by decide)
    rw [h2]
    decide
  · exact (C9_updateFile_frame [fileA, fileB] "x" patchRename).2.2 (by decide)

/-! ### C10 — toggleFileExpansion involution -/

/-- Truthiness of a present optional boolean. -/
theorem jsTruthy_some (b : Bool) : jsTruthy (some b) = b := rfl

/-- C10 counterexample: on a file whose optional `isExpanded` flag is
absent (as `isExpanded?: boolean` permits), toggling twice does not return
the list to its original value — the absent flag is normalised to
`some false`. -/
theorem C10_toggle_counterexample :
    toggleFileExpansion (toggleFileExpansion [fileNoFlag] "a") "a" ≠ [fileNoFlag] ∧
    (toggleFileExpansion (toggleFileExpansion [fileNoFlag] "a") "a").map
      (fun f => f.isExpanded) = [some false] := by
  refine ⟨by decide, by decide⟩

/-- C10 (amended): `toggleFileExpansion` only rewrites the `isExpanded`
field of the files carrying the given id (every other field and every other
file is unchanged, and length and order are preserved); applying it twice
with the same id restores the original list whenever every file carrying
that id has a present `isExpanded` flag — a file with an absent flag is
instead normalised to `isExpanded = some false` by the double toggle. -/
theorem C10_toggle_involution (files : List UploadedFile) (fileId : String) :
    (∀ i (h : i < files.length),
      (toggleFileExpansion files fileId).get ⟨i, by simpa [toggleFileExpansion] using h⟩ =
        (if (files.get ⟨i, h⟩).id = fileId then
          { files.get ⟨i, h⟩ with
              isExpanded := some (!(jsTruthy (files.get ⟨i, h⟩).isExpanded)) }
         else files.get ⟨i, h⟩)) ∧
    ((∀ f ∈ files, f.id = fileId → f.isExpanded.isSome) →
      toggleFileExpansion (toggleFileExpansion files fileId) fileId = files) := by
  constructor
  · intro i h
    simp [toggleFileExpansion]
  · intro h
    unfold toggleFileExpansion
    rw [List.map_map]
    have hcong : ∀ f ∈ files,
        ((fun f : UploadedFile =>
            if f.id = fileId then { f with isExpanded := some (!(jsTruthy f.isExpanded)) }
            else f) ∘
          (fun f : UploadedFile =>
            if f.id = fileId then { f with isExpanded := some (!(jsTruthy f.isExpanded)) }
            else f)) f = id f := by
      intro f hf
      by_cases hid : f.id = fileId
      · obtain ⟨b, hb⟩ := Option.isSome_iff_exists.mp (h f hf hid)
        rcases f with ⟨fid, fname, fcontent, ftype, fsize, flm, fpv, fie⟩
        have hid2 : fid = fileId := hid
        have hb2 : fie = some b := hb
        subst hid2
        subst hb2
        simp [Function.comp, jsTruthy, Bool.not_not]
      · simp [Function.comp, hid]
    rw [List.map_congr_left hcong, List.map_id]

/-- C10 witness: on a list whose files all carry present `isExpanded`
flags, toggling file "a" twice restores the list. -/
theorem C10_toggle_involution_witness :
    toggleFileExpansion (toggleFileExpansion [fileA, fileB] "a") "a" = [fileA, fileB] := by
  exact (C10_toggle_involution [fileA, fileB] "a").2 (by decide)

/-! ### C1 — readiness gate on generation-family operations -/

/-- C1 counterexample: with the readiness flag of the active provider
false, `processFiles` and `condenseContent` fail with the same generic
message `"AI service not ready"` whether the active (not-ready) provider is
Gemini or Puter — the surfaced error does not name which provider is not
ready, against the claim that every generation-family operation does. -/
theorem C1_unnamed_provider_counterexample :
    (processFiles { defaultAIState with selectedService := Service.gemini }
        (Except.ok "r")).result = Except.error "AI service not ready" ∧
    (processFiles { defaultAIState with selectedService := Service.puter }
        (Except.ok "r")).result = Except.error "AI service not ready" ∧
    (condenseContent { defaultAIState with selectedService := Service.gemini }
        (Except.ok "r")).result = Except.error "AI service not ready" ∧
    (condenseContent { defaultAIState with selectedService := Service.puter }
        (Except.ok "r")).result = Except.error "AI service not ready" := by
  refine ⟨by decide, by decide, by decide, by decide⟩

/-- C1 (amended): whenever the active provider's readiness flag is false,
every generation-family operation fails without ever invoking the
provider's generation capability; `generateResponse` fails with a message
naming the not-ready provider (the two providers' messages differ), while
`processFiles` and `condenseContent` fail with the generic
`"AI service not ready"` that does not name the provider. -/
theorem C1_not_ready_gate (s : AIState) (env : GenEnv)
    (call : Except String String) (h : activeReady s = false) :
    (generateResponse s env).providerInvoked = false ∧
    (s.selectedService = Service.gemini →
      (generateResponse s env).result =
        Except.error "Gemini service not ready. Please set API key first.") ∧
    (s.selectedService = Service.puter →
      (generateResponse s env).result =
        Except.error "Puter service not ready. Please connect to Puter first.") ∧
    ("Gemini service not ready. Please set API key first." ≠
      "Puter service not ready. Please connect to Puter first.") ∧
    (processFiles s call).providerInvoked = false ∧
    (processFiles s call).result = Except.error "AI service not ready" ∧
    (condenseContent s call).providerInvoked = false ∧
    (condenseContent s call).result = Except.error "AI service not ready" := by
  refine ⟨?_, ?_, ?_, by decide, ?_, ?_, ?_, ?_⟩ <;>
    first
      | (intro hs; simp [generateResponse, h, hs])
      | simp [generateResponse, processFiles, condenseContent, h]

/-- C1 witness: a state with Puter active and not ready: no provider call
is attempted and the errors are as described. -/
theorem C1_not_ready_gate_witness :
    activeReady { defaultAIState with selectedService := Service.puter } = false ∧
    (generateResponse { defaultAIState with selectedService := Service.puter }
        ⟨true, Except.ok "g", Except.ok "p"⟩).providerInvoked = false ∧
    (processFiles { defaultAIState with selectedService := Service.puter }
        (Except.ok "r")).result = Except.error "AI service not ready" := by
  have h := C1_not_ready_gate { defaultAIState with selectedService := Service.puter }
    ⟨true, Except.ok "g", Except.ok "p"⟩ (Except.ok "r") (by decide)
  exact ⟨by decide, h.1, h.2.2.2.2.2.1⟩

/-! ### C7 — error wrapping of provider failures -/

/-- C7 counterexample: with Gemini active and ready, two different
underlying provider failures ("Rate limit exceeded (429)" and "Network
unreachable") are both surfaced as the same fixed message
`"Failed to generate response"` — the original provider message is not
carried to the caller (`processFiles` likewise surfaces its own fixed
message). -/
theorem C7_message_dropped_counterexample :
    (generateResponse { defaultAIState with isGeminiReady := true }
        ⟨true, Except.error "Rate limit exceeded (429)", Except.ok "p"⟩).result =
      Except.error "Failed to generate response" ∧
    (generateResponse { defaultAIState with isGeminiReady := true }
        ⟨true, Except.error "Network unreachable", Except.ok "p"⟩).result =
      Except.error "Failed to generate response" ∧
    (processFiles { defaultAIState with isGeminiReady := true }
        (Except.error "Rate limit exceeded (429)")).result =
      Except.error "Failed to process files" ∧
    "Failed to generate response" ≠ "Rate limit exceeded (429)" := by
  refine ⟨by decide, by decide, by decide, by decide⟩

/-- C7 (amended): when the active provider is ready and its underlying call
fails, the error surfaced to the caller is a fixed, operation-specific
generic message — `"Failed to generate response"`, `"Failed to process
files"` or `"Failed to condense content"` — independent of (and not
carrying) the original provider error's message, which is only logged. -/
theorem C7_generic_wrapping (s : AIState) (env : GenEnv)
    (msg : String) (h : activeReady s = true) :
    (s.selectedService = Service.gemini → env.geminiGenerate = Except.error msg →
      (generateResponse s env).result = Except.error "Failed to generate response") ∧
    (s.selectedService = Service.puter → env.puterAvailable = true →
      env.puterGenerate = Except.error msg →
      (generateResponse s env).result = Except.error "Failed to generate response") ∧
    ((processFiles s (Except.error msg)).result =
      Except.error "Failed to process files") ∧
    ((condenseContent s (Except.error msg)).result =
      Except.error "Failed to condense content") := by
  refine ⟨?_, ?_, ?_, ?_⟩
  · intro hs hg
    simp [generateResponse, h, hs, hg]
  · intro hs hp hg
    simp [generateResponse, h, hs, hp, hg]
  · simp [processFiles, h]
  · simp [condenseContent, h]

/-- C7 witness: a ready Gemini state whose provider call fails with
"boom" surfaces the fixed generic messages. -/
theorem C7_generic_wrapping_witness :
    (generateResponse { defaultAIState with isGeminiReady := true }
        ⟨true, Except.error "boom", Except.ok "p"⟩).result =
      Except.error "Failed to generate response" ∧
    (processFiles { defaultAIState with isGeminiReady := true }
        (Except.error "boom")).result = Except.error "Failed to process files" := by
  have h := C7_generic_wrapping { defaultAIState with isGeminiReady := true }
    ⟨true, Except.error "boom", Except.ok "p"⟩ "boom" (by decide)
  exact ⟨h.1 (by decide) (by decide), h.2.2.1⟩

/-! ### C4 — switchService model reset and persistence -/

/-- C4 counterexample: starting from Gemini active with persisted model
"gemini-2.0-flash" and a cached Puter catalog headed by "gpt-4o-mini",
`switchService puter` sets the in-memory model to "gpt-4o-mini" but
persists only the provider tag — the persisted model stays
"gemini-2.0-flash", so a reload immediately after the switch yields the
new provider paired with the old model, a mismatched pair; moreover, with
an empty cached catalog the in-memory model is not reset at all. -/
theorem C4_switch_not_atomic_counterexample :
    (switchService sampleSwitchState Service.puter).ai.currentModel = "gpt-4o-mini" ∧
    (switchService sampleSwitchState Service.puter).stored.selectedModel =
      "gemini-2.0-flash" ∧
    (initFromSettings (switchService sampleSwitchState Service.puter).stored
        true).selectedService = Service.puter ∧
    (initFromSettings (switchService sampleSwitchState Service.puter).stored
        true).currentModel = "gemini-2.0-flash" ∧
    (switchService sampleSwitchStateNoCatalog Service.puter).ai.currentModel =
      "gemini-2.0-flash" := by
  refine ⟨by decide, by decide, by decide, by decide, by decide⟩

/-- C4 (amended): `switchService` sets the active provider in memory and
persists only the provider tag; the in-memory model is reset to the first
entry of the new provider's cached catalog when that catalog is non-empty
and is left unchanged otherwise; the model id is never persisted by the
switch, so a reload immediately after switching to Puter derives its
current model from the previously persisted `selectedModel`, which can pair
the new provider with the old provider's model. -/
theorem C4_switch_persists_tag_only (st : UseAI) (svc : Service) :
    (switchService st svc).ai.selectedService = svc ∧
    (switchService st svc).stored.selectedService = some svc ∧
    (switchService st svc).stored.selectedModel = st.stored.selectedModel ∧
    (switchService st svc).stored.apiKey = st.stored.apiKey ∧
    (svc = Service.gemini → st.ai.availableModels = [] →
      (switchService st svc).ai.currentModel = st.ai.currentModel) ∧
    (∀ m ms, svc = Service.gemini → st.ai.availableModels = m :: ms →
      (switchService st svc).ai.currentModel = m.name) ∧
    (svc = Service.puter → st.ai.availablePuterModels = [] →
      (switchService st svc).ai.currentModel = st.ai.currentModel) ∧
    (∀ m ms, svc = Service.puter → st.ai.availablePuterModels = m :: ms →
      (switchService st svc).ai.currentModel = m.name) ∧
    (svc = Service.puter → jsStr st.stored.selectedModel = true → ∀ pav,
      (initFromSettings (switchService st svc).stored pav).currentModel =
        st.stored.selectedModel) := by
  refine ⟨?_, ?_, ?_, ?_, ?_, ?_, ?_, ?_, ?_⟩
  · cases svc <;> cases hm : st.ai.availableModels <;>
      cases hp : st.ai.availablePuterModels <;> simp [switchService, hm, hp]
  · cases svc <;> cases hm : st.ai.availableModels <;>
      cases hp : st.ai.availablePuterModels <;> simp [switchService, hm, hp]
  · cases svc <;> cases hm : st.ai.availableModels <;>
      cases hp : st.ai.availablePuterModels <;> simp [switchService, hm, hp]
  · cases svc <;> cases hm : st.ai.availableModels <;>
      cases hp : st.ai.availablePuterModels <;> simp [switchService, hm, hp]
  · intro hsvc hm
    subst hsvc
    simp [switchService, hm]
  · intro m ms hsvc hm
    subst hsvc
    simp [switchService, hm]
  · intro hsvc hp
    subst hsvc
    simp [switchService, hp]
  · intro m ms hsvc hp
    subst hsvc
    simp [switchService, hp]
  · intro hsvc hmod pav
    subst hsvc
    have hstored : (switchService st Service.puter).stored =
        { st.stored with selectedService := some Service.puter } := by
      cases hp : st.ai.availablePuterModels <;> simp [switchService, hp]
    rw [hstored]
    unfold initFromSettings
    cases hkey : jsStr st.stored.apiKey <;> cases pav <;> simp [hmod]

/-- C4 witness: at the sample state, switching to Puter resets the
in-memory model to the catalog head, keeps the persisted model unchanged,
and a reload pairs the new provider with the previously persisted model. -/
theorem C4_switch_persists_tag_only_witness :
    (switchService sampleSwitchState Service.puter).ai.currentModel = "gpt-4o-mini" ∧
    (switchService sampleSwitchState Service.puter).stored.selectedModel =
      sampleSwitchState.stored.selectedModel ∧
    (initFromSettings (switchService sampleSwitchState Service.puter).stored
        true).currentModel = sampleSwitchState.stored.selectedModel := by
  have h := C4_switch_persists_tag_only sampleSwitchState Service.puter
  refine ⟨?_, h.2.2.1, h.2.2.2.2.2.2.2.2 rfl (by decide) true⟩
  exact h.2.2.2.2.2.2.2.1 ⟨"gpt-4o-mini"⟩ [] rfl (by decide)

/-! ### Pipeline helper lemmas -/

theorem stepOverall_mono (n : Nat) {k k' : Nat} (h : k ≤ k') :
    stepOverall n k ≤ stepOverall n k' := by
  unfold stepOverall
  rcases Nat.eq_zero_or_pos n with hn | hn
  · subst hn
    simp
  · have hpos : (0 : ℚ) < (n : ℚ) := by exact_mod_cast hn
    have hk : (k : ℚ) ≤ (k' : ℚ) := by exact_mod_cast h
    have := (div_le_div_iff_of_pos_right hpos).mpr hk
    nlinarith

theorem stepOverall_lt_100 (n k : Nat) (h : k < n) :
    stepOverall n k < 100 := by
  have hn : 0 < n := lt_of_le_of_lt (Nat.zero_le k) h
  have hpos : (0 : ℚ) < (n : ℚ) := by exact_mod_cast hn
  have hk : (k : ℚ) < (n : ℚ) := by exact_mod_cast h
  unfold stepOverall
  calc ((k : ℚ) / (n : ℚ)) * 100 < ((n : ℚ) / (n : ℚ)) * 100 := by
        apply mul_lt_mul_of_pos_right _ (by norm_num)
        exact (div_lt_div_iff_of_pos_right hpos).mpr hk
    _ = 100 := by rw [div_self (ne_of_gt hpos), one_mul]

theorem stepOverall_self (n : Nat) (h : 0 < n) : stepOverall n n = 100 := by
  unfold stepOverall
  have hne : (n : ℚ) ≠ 0 := by
    have h0 : (0 : ℚ) < (n : ℚ) := by exact_mod_cast h
    exact ne_of_gt h0
  rw [div_self hne, one_mul]

theorem stepOverall_zero (n : Nat) : stepOverall n 0 = 0 := by
  simp [stepOverall]

theorem chain_le_cons_replicate (a : ℚ) (k : Nat) (l : List ℚ)
    (h : List.Chain' (· ≤ ·) (a :: l)) :
    List.Chain' (· ≤ ·) (a :: (List.replicate k a ++ l)) := by
  induction k with
  | zero => simpa using h
  | succ k ih =>
    rw [List.replicate_succ]
    exact List.chain'_cons.mpr ⟨le_refl a, ih⟩

theorem stepBody_error_iff (opts : PipelineOptions) (env : PipelineEnv)
    (m : Nat) (sid : String) (q0 : ℚ) (e : String) :
    (stepBody opts env m sid q0).outcome = Except.error e ↔
      bodyError opts env m sid = some e := by
  unfold bodyError stepBody
  by_cases h1 : sid = "extract"
  · simp only [h1, if_pos]
    cases (extractLoopAux m 0 (alignedExtracts env m)).2 <;> simp
  · by_cases h2 : sid = "analyze"
    · simp [h1, h2]
    · by_cases h3 : sid = "combine"
      · simp only [h1, h2, h3, if_neg, if_pos, reduceIte]
        by_cases h4 : opts.hasCombinationOptions
        · simp only [h4, if_pos]
          cases env.combine <;> simp
        · simp [h4]
      · simp [h1, h2, h3]

theorem stepBody_ok_of_bodyError_none (opts : PipelineOptions) (env : PipelineEnv)
    (m : Nat) (sid : String) (q0 : ℚ)
    (h : bodyError opts env m sid = none) :
    ∃ pr, (stepBody opts env m sid q0).outcome = Except.ok pr := by
  cases ho : (stepBody opts env m sid q0).outcome with
  | ok pr => exact ⟨pr, rfl⟩
  | error e =>
    rw [(stepBody_error_iff opts env m sid q0 e).mp ho] at h
    cases h

theorem exists_concat_cons_append {α : Type} (x s f : α) (b p0 r1 : List α)
    (h : r1 = p0 ++ [f]) : ∃ pre, x :: (b ++ s :: r1) = pre ++ [f] := by
  subst h
  exact ⟨x :: (b ++ s :: p0), by simp⟩

theorem runLoop_last (opts : PipelineOptions) (env : PipelineEnv) (n : Nat) :
    ∀ (rest : List PipelineStep) (pl : Pipeline) (before : List PipelineStep) (t : Nat),
      ∃ pre, (runLoop opts env n pl before rest t).1 =
        pre ++ [(runLoop opts env n pl before rest t).2.1] := by
  intro rest
  induction rest with
  | nil =>
    intro pl before t
    exact ⟨[], rfl⟩
  | cons step rest ih =>
    intro pl before t
    simp only [runLoop]
    cases hb : (stepBody opts env pl.files.length step.id step.progress).outcome with
    | error msg =>
      exact ⟨_, (List.cons_append _ _ _).symm⟩
    | ok pr =>
      obtain ⟨pre, hpre⟩ := ih (advanceOverall pl n (before.length + 1))
        (before ++ [completedStep (runningStep step t) pr (t + 1)]) (t + 2)
      exact exists_concat_cons_append _ _ _ _ _ _ hpre

theorem runLoop_final_frame (opts : PipelineOptions) (env : PipelineEnv) (n : Nat) :
    ∀ (rest : List PipelineStep) (pl : Pipeline) (before : List PipelineStep) (t : Nat),
      (runLoop opts env n pl before rest t).2.1.id = pl.id ∧
      (runLoop opts env n pl before rest t).2.1.name = pl.name ∧
      (runLoop opts env n pl before rest t).2.1.files = pl.files ∧
      (runLoop opts env n pl before rest t).2.1.startTime = pl.startTime ∧
      (runLoop opts env n pl before rest t).2.1.endTime.isSome = true := by
  intro rest
  induction rest with
  | nil =>
    intro pl before t
    exact ⟨rfl, rfl, rfl, rfl, rfl⟩
  | cons step rest ih =>
    intro pl before t
    simp only [runLoop]
    cases hb : (stepBody opts env pl.files.length step.id step.progress).outcome with
    | error msg =>
      exact ⟨rfl, rfl, rfl, rfl, rfl⟩
    | ok pr =>
      exact ih (advanceOverall pl n (before.length + 1))
        (before ++ [completedStep (runningStep step t) pr (t + 1)]) (t + 2)

theorem map_overall_bodySnaps (pl : Pipeline) (before rest : List PipelineStep)
    (running : PipelineStep) (L : List ℚ) :
    List.map Pipeline.overallProgress
      (L.map (fun q => withSteps pl (before ++ { running with progress := q } :: rest))) =
      List.replicate L.length pl.overallProgress := by
  induction L with
  | nil => rfl
  | cons a L ihL =>
    rw [List.map_cons, List.map_cons, List.length_cons, List.replicate_succ]
    exact congrArg₂ List.cons rfl ihL

theorem runLoop_mono (opts : PipelineOptions) (env : PipelineEnv) (n : Nat) :
    ∀ (rest : List PipelineStep) (pl : Pipeline) (before : List PipelineStep) (t : Nat),
      n = before.length + rest.length →
      pl.overallProgress = stepOverall n before.length →
      List.Chain' (· ≤ ·) (pl.overallProgress ::
        (runLoop opts env n pl before rest t).1.map Pipeline.overallProgress) ∧
      pl.overallProgress ≤ (runLoop opts env n pl before rest t).2.1.overallProgress ∧
      (∀ p ∈ (runLoop opts env n pl before rest t).1,
        p.overallProgress ≤ (runLoop opts env n pl before rest t).2.1.overallProgress) := by
  intro rest
  induction rest with
  | nil =>
    intro pl before t hn ho
    refine ⟨?_, le_refl _, ?_⟩
    · exact List.chain'_cons.mpr ⟨le_refl _, List.chain'_singleton _⟩
    · intro p hp
      simp only [runLoop, List.mem_singleton] at hp
      subst hp
      exact le_refl _
  | cons step rest ih =>
    intro pl before t hn ho
    have hle : pl.overallProgress ≤ stepOverall n (before.length + 1) := by
      rw [ho]
      exact stepOverall_mono n (Nat.le_succ _)
    simp only [runLoop]
    cases hb : (stepBody opts env pl.files.length step.id step.progress).outcome with
    | error msg =>
      refine ⟨?_, le_refl _, ?_⟩
      · rw [List.map_cons, List.map_append, map_overall_bodySnaps]
        refine List.chain'_cons.mpr ⟨le_refl _, ?_⟩
        exact chain_le_cons_replicate _ _ _
          (List.chain'_cons.mpr ⟨le_refl _, List.chain'_singleton _⟩)
      · intro p hp
        simp only [List.mem_cons, List.mem_append, List.mem_map] at hp
        rcases hp with h1 | ⟨q, hq, h2⟩ | h3 | h4
        · subst h1; exact le_refl _
        · rw [← h2]; exact le_refl _
        · subst h3; exact le_refl _
        · simp at h4
    | ok pr =>
      have hn2 : n = (before ++ [completedStep (runningStep step t) pr (t + 1)]).length
          + rest.length := by
        simp only [List.length_append, List.length_cons, List.length_nil] at hn ⊢
        omega
      have ho2 : (advanceOverall pl n (before.length + 1)).overallProgress =
          stepOverall n (before ++ [completedStep (runningStep step t) pr (t + 1)]).length := by
        simp [advanceOverall]
      obtain ⟨ihChain, ihLe, ihAll⟩ := ih (advanceOverall pl n (before.length + 1))
        (before ++ [completedStep (runningStep step t) pr (t + 1)]) (t + 2) hn2 ho2
      have hfin : pl.overallProgress ≤
          (runLoop opts env n (advanceOverall pl n (before.length + 1))
            (before ++ [completedStep (runningStep step t) pr (t + 1)]) rest
            (t + 2)).2.1.overallProgress :=
        le_trans hle ihLe
      refine ⟨?_, hfin, ?_⟩
      · rw [List.map_cons, List.map_append, map_overall_bodySnaps, List.map_cons]
        refine List.chain'_cons.mpr ⟨le_refl _, ?_⟩
        exact chain_le_cons_replicate _ _ _ (List.chain'_cons.mpr ⟨hle, ihChain⟩)
      · intro p hp
        simp only [List.mem_cons, List.mem_append, List.mem_map] at hp
        rcases hp with h1 | ⟨q, hq, h2⟩ | h3 | h4
        · subst h1; exact hfin
        · rw [← h2]; exact hfin
        · subst h3; exact ihLe
        · exact ihAll p h4

theorem firstFailure_cons_none (opts : PipelineOptions) (env : PipelineEnv)
    (m : Nat) (step : PipelineStep) (rest : List PipelineStep)
    (h : firstFailure opts env m (step :: rest) = none) :
    bodyError opts env m step.id = none ∧ firstFailure opts env m rest = none := by
  unfold firstFailure at h
  cases hbe : bodyError opts env m step.id with
  | some e => rw [hbe] at h; cases h
  | none =>
    rw [hbe] at h
    simp only [Option.map_eq_none'] at h
    exact ⟨rfl, h⟩

theorem runLoop_complete (opts : PipelineOptions) (env : PipelineEnv) (n : Nat) :
    ∀ (rest : List PipelineStep) (pl : Pipeline) (before : List PipelineStep) (t : Nat),
      n = before.length + rest.length →
      pl.overallProgress = stepOverall n before.length →
      firstFailure opts env pl.files.length rest = none →
      (runLoop opts env n pl before rest t).2.1.status = RunStatus.complete ∧
      (runLoop opts env n pl before rest t).2.1.overallProgress = stepOverall n n ∧
      ∃ suffix, (runLoop opts env n pl before rest t).2.1.steps = before ++ suffix ∧
        suffix.length = rest.length ∧
        suffix.map PipelineStep.id = rest.map PipelineStep.id ∧
        (∀ s ∈ suffix, s.status = StepStatus.complete) := by
  intro rest
  induction rest with
  | nil =>
    intro pl before t hn ho _
    refine ⟨rfl, ?_, [], by simp [runLoop, markComplete], rfl, rfl, by simp⟩
    have hnb : n = before.length := by simpa using hn
    rw [show (runLoop opts env n pl before [] t).2.1.overallProgress =
      pl.overallProgress from rfl, ho, hnb]
  | cons step rest ih =>
    intro pl before t hn ho hff
    obtain ⟨hbe, hffr⟩ := firstFailure_cons_none opts env pl.files.length step rest hff
    obtain ⟨pr, hpr⟩ := stepBody_ok_of_bodyError_none opts env pl.files.length
      step.id step.progress hbe
    have hn2 : n = (before ++ [completedStep (runningStep step t) pr (t + 1)]).length
        + rest.length := by
      simp only [List.length_append, List.length_cons, List.length_nil] at hn ⊢
      omega
    have ho2 : (advanceOverall pl n (before.length + 1)).overallProgress =
        stepOverall n (before ++ [completedStep (runningStep step t) pr (t + 1)]).length := by
      simp [advanceOverall]
    obtain ⟨ihStatus, ihOverall, suffix, ihSteps, ihLen, ihIds, ihCompl⟩ :=
      ih (advanceOverall pl n (before.length + 1))
        (before ++ [completedStep (runningStep step t) pr (t + 1)]) (t + 2) hn2 ho2 hffr
    simp only [runLoop, hpr]
    refine ⟨ihStatus, ihOverall,
      completedStep (runningStep step t) pr (t + 1) :: suffix, ?_, ?_, ?_, ?_⟩
    · rw [ihSteps, List.append_assoc]
      rfl
    · simp [ihLen]
    · simp only [List.map_cons, ihIds]
      rfl
    · intro s hs
      rcases List.mem_cons.mp hs with h1 | h2
      · subst h1
        rfl
      · exact ihCompl s h2

theorem firstFailure_cons_some (opts : PipelineOptions) (env : PipelineEnv)
    (m : Nat) (step : PipelineStep) (rest : List PipelineStep) (k : Nat) (msg : String)
    (h : firstFailure opts env m (step :: rest) = some (k, msg)) :
    (k = 0 ∧ bodyError opts env m step.id = some msg) ∨
    (∃ k', k = k' + 1 ∧ bodyError opts env m step.id = none ∧
      firstFailure opts env m rest = some (k', msg)) := by
  unfold firstFailure at h
  cases hbe : bodyError opts env m step.id with
  | some e =>
    rw [hbe] at h
    cases h
    exact Or.inl ⟨rfl, rfl⟩
  | none =>
    rw [hbe] at h
    right
    rcases Option.map_eq_some'.mp h with ⟨⟨k', msg'⟩, hk, heq⟩
    cases heq
    exact ⟨k', rfl, rfl, hk⟩

theorem runLoop_error (opts : PipelineOptions) (env : PipelineEnv) (n : Nat) :
    ∀ (rest : List PipelineStep) (pl : Pipeline) (before : List PipelineStep)
      (t k : Nat) (msg : String),
      n = before.length + rest.length →
      pl.overallProgress = stepOverall n before.length →
      firstFailure opts env pl.files.length rest = some (k, msg) →
      (runLoop opts env n pl before rest t).2.1.status = RunStatus.error ∧
      (runLoop opts env n pl before rest t).2.1.overallProgress =
        stepOverall n (before.length + k) ∧
      (runLoop opts env n pl before rest t).2.1.endTime.isSome = true ∧
      (∃ comp failStep after errStep,
        rest.drop k = failStep :: after ∧
        (runLoop opts env n pl before rest t).2.1.steps =
          before ++ comp ++ errStep :: after ∧
        comp.length = k ∧
        comp.map PipelineStep.id = (rest.take k).map PipelineStep.id ∧
        (∀ s ∈ comp, s.status = StepStatus.complete) ∧
        errStep.id = failStep.id ∧
        errStep.status = StepStatus.error ∧
        errStep.error = some msg ∧
        errStep.endTime.isSome = true) ∧
      (∀ snap ∈ (runLoop opts env n pl before rest t).1,
        List.IsSuffix (rest.drop (k + 1)) snap.steps) := by
  intro rest
  induction rest with
  | nil =>
    intro pl before t k msg hn ho hff
    cases hff
  | cons step rest ih =>
    intro pl before t k msg hn ho hff
    rcases firstFailure_cons_some opts env pl.files.length step rest k msg hff with
      ⟨hk0, hbe⟩ | ⟨k', hk', hbe, hffr⟩
    · subst hk0
      have hpr : (stepBody opts env pl.files.length step.id step.progress).outcome =
          Except.error msg := (stepBody_error_iff opts env pl.files.length step.id
            step.progress msg).mpr hbe
      simp only [runLoop, hpr]
      refine ⟨rfl, by simpa using ho.symm ▸ rfl, rfl, ?_, ?_⟩
      · refine ⟨[], step, rest,
          failedStep (runningStep step t)
            ((stepBody opts env pl.files.length step.id step.progress).snaps.getLastD
              (runningStep step t).progress) msg (t + 1),
          rfl, by simp [withSteps], rfl, rfl, by simp, rfl, rfl, rfl, rfl⟩
      · intro snap hsnap
        simp only [List.drop_succ_cons, List.drop_zero]
        simp only [List.mem_cons, List.mem_append, List.mem_map] at hsnap
        rcases hsnap with h1 | ⟨q, hq, h2⟩ | h3 | h4
        · subst h1
          exact ⟨before ++ [runningStep step t], by simp [withSteps]⟩
        · rw [← h2]
          exact ⟨before ++ [{ runningStep step t with progress := q }], by simp [withSteps]⟩
        · subst h3
          refine ⟨before ++ [failedStep (runningStep step t)
            ((stepBody opts env pl.files.length step.id step.progress).snaps.getLastD
              (runningStep step t).progress) msg (t + 1)], by simp [withSteps]⟩
        · simp at h4
    · subst hk'
      obtain ⟨pr, hpr⟩ := stepBody_ok_of_bodyError_none opts env pl.files.length
        step.id step.progress hbe
      have hn2 : n = (before ++ [completedStep (runningStep step t) pr (t + 1)]).length
          + rest.length := by
        simp only [List.length_append, List.length_cons, List.length_nil] at hn ⊢
        omega
      have ho2 : (advanceOverall pl n (before.length + 1)).overallProgress =
          stepOverall n (before ++ [completedStep (runningStep step t) pr (t + 1)]).length := by
        simp [advanceOverall]
      obtain ⟨ihStatus, ihOverall, ihEnd, ⟨comp, failStep, after, errStep, ihDrop, ihSteps,
        ihLen, ihIds, ihCompl, ihErrId, ihErrStatus, ihErrMsg, ihErrEnd⟩, ihTrace⟩ :=
        ih (advanceOverall pl n (before.length + 1))
          (before ++ [completedStep (runningStep step t) pr (t + 1)]) (t + 2) k' msg hn2 ho2 hffr
      simp only [runLoop, hpr]
      refine ⟨ihStatus, ?_, ihEnd, ?_, ?_⟩
      · rw [ihOverall]
        have harith : (before ++ [completedStep (runningStep step t) pr (t + 1)]).length + k' =
            before.length + (k' + 1) := by
          simp only [List.length_append, List.length_cons, List.length_nil]
          omega
        rw [harith]
      · refine ⟨completedStep (runningStep step t) pr (t + 1) :: comp, failStep, after,
          errStep, ?_, ?_, ?_, ?_, ?_, ihErrId, ihErrStatus, ihErrMsg, ihErrEnd⟩
        · simpa using ihDrop
        · rw [ihSteps]
          simp [List.append_assoc]
        · simp [ihLen]
        · simp only [List.take_succ_cons, List.map_cons, ihIds]
          rfl
        · intro s hs
          rcases List.mem_cons.mp hs with h1 | h2
          · subst h1
            rfl
          · exact ihCompl s h2
      · have hdropEq : (step :: rest).drop (k' + 1 + 1) = rest.drop (k' + 1) := by
          simp
        intro snap hsnap
        rw [hdropEq]
        have hsufRest : List.IsSuffix (rest.drop (k' + 1)) rest := List.drop_suffix _ _
        simp only [List.mem_cons, List.mem_append, List.mem_map] at hsnap
        rcases hsnap with h1 | ⟨q, hq, h2⟩ | h3 | h4
        · subst h1
          exact hsufRest.trans ⟨before ++ [runningStep step t], by simp [withSteps]⟩
        · rw [← h2]
          exact hsufRest.trans
            ⟨before ++ [{ runningStep step t with progress := q }], by simp [withSteps]⟩
        · subst h3
          exact hsufRest.trans
            ⟨before ++ [completedStep (runningStep step t) pr (t + 1)], by simp [withSteps]⟩
        · exact ihTrace snap h4

theorem stepBody_analyses_irrel (opts : PipelineOptions)
    (ex : List (Except String String)) (a1 a2 : List (Except String FileAnalysis))
    (co : Except String CombinationResult) (m : Nat) (sid : String) (q0 : ℚ) :
    stepBody opts ⟨ex, a2, co⟩ m sid q0 = stepBody opts ⟨ex, a1, co⟩ m sid q0 := rfl

theorem runLoop_analyses_irrel (opts : PipelineOptions)
    (ex : List (Except String String)) (a1 a2 : List (Except String FileAnalysis))
    (co : Except String CombinationResult) (n : Nat) :
    ∀ (rest : List PipelineStep) (pl : Pipeline) (before : List PipelineStep) (t : Nat),
      runLoop opts ⟨ex, a1, co⟩ n pl before rest t =
        runLoop opts ⟨ex, a2, co⟩ n pl before rest t := by
  intro rest
  induction rest with
  | nil =>
    intro pl before t
    rfl
  | cons step rest ih =>
    intro pl before t
    simp only [runLoop, stepBody_analyses_irrel opts ex a1 a2 co]
    cases hb : (stepBody opts ⟨ex, a1, co⟩ pl.files.length step.id step.progress).outcome with
    | error msg => rfl
    | ok pr =>
      dsimp only
      rw [ih (advanceOverall pl n (before.length + 1))
        (before ++ [completedStep (runningStep step t) pr (t + 1)]) (t + 2)]

theorem runPipeline_analyses_irrel (opts : PipelineOptions)
    (ex : List (Except String String)) (a1 a2 : List (Except String FileAnalysis))
    (co : Except String CombinationResult) (files : List UploadedFile) (t0 : Nat) :
    runProcessingPipeline opts ⟨ex, a1, co⟩ files t0 =
      runProcessingPipeline opts ⟨ex, a2, co⟩ files t0 := by
  unfold runProcessingPipeline
  dsimp only
  rw [runLoop_analyses_irrel opts ex a1 a2 co]

theorem mkSteps_mem (opts : PipelineOptions) (s : PipelineStep)
    (hs : s ∈ mkSteps opts) :
    s = extractStepInit ∨ s = analyzeStepInit ∨ s = combineStepInit := by
  unfold mkSteps at hs
  rcases List.mem_append.mp hs with h | h
  · rcases List.mem_append.mp h with h2 | h2
    · by_cases he : opts.extractText
      · simp [he] at h2
        exact Or.inl h2
      · simp [he] at h2
    · by_cases ha : opts.analyzeFiles
      · simp [ha] at h2
        exact Or.inr (Or.inl h2)
      · simp [ha] at h2
  · by_cases hc : opts.combineFiles
    · simp [hc] at h
      exact Or.inr (Or.inr h)
    · simp [hc] at h

theorem mkSteps_pending (opts : PipelineOptions) (s : PipelineStep)
    (hs : s ∈ mkSteps opts) : s.status = StepStatus.pending := by
  rcases mkSteps_mem opts s hs with h | h | h <;> subst h <;> rfl

theorem pipelineInit_fields (opts : PipelineOptions) (files : List UploadedFile)
    (t0 : Nat) :
    (pipelineInit opts files t0).files = files ∧
    (pipelineInit opts files t0).steps = mkSteps opts ∧
    (pipelineInit opts files t0).overallProgress = 0 ∧
    (pipelineInit opts files t0).status = RunStatus.running :=
  ⟨rfl, rfl, rfl, rfl⟩

theorem runPipeline_trace (opts : PipelineOptions) (env : PipelineEnv)
    (files : List UploadedFile) (t0 : Nat) :
    (runProcessingPipeline opts env files t0).1 =
      pipelineInit opts files t0 ::
        (runLoop opts env (mkSteps opts).length (pipelineInit opts files t0)
          [] (mkSteps opts) (t0 + 1)).1 ∧
    (runProcessingPipeline opts env files t0).2 =
      (runLoop opts env (mkSteps opts).length (pipelineInit opts files t0)
        [] (mkSteps opts) (t0 + 1)).2.1 :=
  ⟨rfl, rfl⟩

/-! ### C3 — overall progress -/

/-- C3 (amended): over a run's observable states, `overallProgress` is
non-decreasing and bounded by the final value; the run ends `complete` or
`error`; a complete run with at least one step ends at exactly 100, while a
complete run with no steps ends at 0; a run ending in `error` never shows
100; if any observable state shows 100 the run ends `complete`; and the
cancel operation preserves `overallProgress` while setting status
`cancelled` with an end timestamp — so a run cancelled while below 100
never shows 100, but cancelling an already-complete run leaves 100
showing under status `cancelled`. -/
theorem C3_progress (opts : PipelineOptions) (env : PipelineEnv)
    (files : List UploadedFile) (t0 : Nat) :
    List.Chain' (· ≤ ·)
      ((runProcessingPipeline opts env files t0).1.map Pipeline.overallProgress) ∧
    (∀ p ∈ (runProcessingPipeline opts env files t0).1,
      p.overallProgress ≤ (runProcessingPipeline opts env files t0).2.overallProgress) ∧
    ((runProcessingPipeline opts env files t0).2.status = RunStatus.complete ∨
      (runProcessingPipeline opts env files t0).2.status = RunStatus.error) ∧
    ((runProcessingPipeline opts env files t0).2.status = RunStatus.complete →
      mkSteps opts ≠ [] →
      (runProcessingPipeline opts env files t0).2.overallProgress = 100) ∧
    ((runProcessingPipeline opts env files t0).2.status = RunStatus.complete →
      mkSteps opts = [] →
      (runProcessingPipeline opts env files t0).2.overallProgress = 0) ∧
    ((runProcessingPipeline opts env files t0).2.status = RunStatus.error →
      ∀ p ∈ (runProcessingPipeline opts env files t0).1, p.overallProgress < 100) ∧
    ((∃ p ∈ (runProcessingPipeline opts env files t0).1, p.overallProgress = 100) →
      (runProcessingPipeline opts env files t0).2.status = RunStatus.complete) ∧
    (∀ p (t : Nat), (cancelProcessing p t).overallProgress = p.overallProgress ∧
      (cancelProcessing p t).status = RunStatus.cancelled ∧
      (cancelProcessing p t).endTime = some t) := by
  obtain ⟨htr, hfin⟩ := runPipeline_trace opts env files t0
  have hn0 : (mkSteps opts).length =
      ([] : List PipelineStep).length + (mkSteps opts).length := by simp
  have ho0 : (pipelineInit opts files t0).overallProgress =
      stepOverall (mkSteps opts).length ([] : List PipelineStep).length := by
    simp [pipelineInit, stepOverall_zero]
  obtain ⟨hchain, hle0, hall⟩ := runLoop_mono opts env (mkSteps opts).length
    (mkSteps opts) (pipelineInit opts files t0) [] (t0 + 1) hn0 ho0
  have hmono : List.Chain' (· ≤ ·)
      ((runProcessingPipeline opts env files t0).1.map Pipeline.overallProgress) := by
    rw [htr, List.map_cons]
    exact hchain
  have hallmem : ∀ p ∈ (runProcessingPipeline opts env files t0).1,
      p.overallProgress ≤ (runProcessingPipeline opts env files t0).2.overallProgress := by
    rw [htr, hfin]
    intro p hp
    rcases List.mem_cons.mp hp with h1 | h2
    · subst h1
      exact hle0
    · exact hall p h2
  rcases hf : firstFailure opts env files.length (mkSteps opts) with _ | ⟨k, msg⟩
  · obtain ⟨hstat, hov, suffix, hsteps, hlen, hids, hcompl⟩ :=
      runLoop_complete opts env (mkSteps opts).length (mkSteps opts)
        (pipelineInit opts files t0) [] (t0 + 1) hn0 ho0 hf
    refine ⟨hmono, hallmem, Or.inl (by rw [hfin]; exact hstat), ?_, ?_, ?_, ?_, ?_⟩
    · intro _ hne
      rw [hfin, hov]
      exact stepOverall_self _ (List.length_pos.mpr hne)
    · intro _ hemp
      rw [hfin, hov, hemp]
      exact stepOverall_zero 0
    · intro herr
      rw [hfin, hstat] at herr
      cases herr
    · intro _
      rw [hfin]
      exact hstat
    · intro p t
      exact ⟨rfl, rfl, rfl⟩
  · obtain ⟨hstat, hov, hend, ⟨comp, failStep, after, errStep, hdrop, hsteps, hlen,
      hids, hcompl, herrid, herrstat, herrmsg, herrend⟩, htrace⟩ :=
      runLoop_error opts env (mkSteps opts).length (mkSteps opts)
        (pipelineInit opts files t0) [] (t0 + 1) k msg hn0 ho0 hf
    have hk : k < (mkSteps opts).length := by
      by_contra hk
      push_neg at hk
      rw [List.drop_eq_nil_of_le hk] at hdrop
      cases hdrop
    have h100 : (runProcessingPipeline opts env files t0).2.overallProgress < 100 := by
      rw [hfin, hov]
      have : ([] : List PipelineStep).length + k = k := by simp
      rw [this]
      exact stepOverall_lt_100 _ k hk
    refine ⟨hmono, hallmem, Or.inr (by rw [hfin]; exact hstat), ?_, ?_, ?_, ?_, ?_⟩
    · intro hc
      rw [hfin, hstat] at hc
      cases hc
    · intro hc
      rw [hfin, hstat] at hc
      cases hc
    · intro _ p hp
      exact lt_of_le_of_lt (hallmem p hp) h100
    · rintro ⟨p, hp, hp100⟩
      have := lt_of_le_of_lt (hallmem p hp) h100
      rw [hp100] at this
      exact absurd this (lt_irrefl 100)
    · intro p t
      exact ⟨rfl, rfl, rfl⟩

/-- C3 counterexample: a completed one-step run shows `overallProgress`
exactly 100; invoking cancel on it yields an observable state with status
`cancelled` and `overallProgress` still 100, so a run whose state sequence
ends in `cancelled` does show 100; moreover a run configured with no steps
completes with `overallProgress` 0, not 100. -/
theorem C3_cancel_counterexample :
    (runProcessingPipeline optsExtractOnly envAllOk [fileA] 0).2.status =
      RunStatus.complete ∧
    (runProcessingPipeline optsExtractOnly envAllOk [fileA] 0).2.overallProgress = 100 ∧
    (cancelProcessing (runProcessingPipeline optsExtractOnly envAllOk [fileA] 0).2
      99).status = RunStatus.cancelled ∧
    (cancelProcessing (runProcessingPipeline optsExtractOnly envAllOk [fileA] 0).2
      99).endTime = some 99 ∧
    (cancelProcessing (runProcessingPipeline optsExtractOnly envAllOk [fileA] 0).2
      99).overallProgress = 100 ∧
    (runProcessingPipeline optsNoStages envAllOk [] 0).2.status = RunStatus.complete ∧
    (runProcessingPipeline optsNoStages envAllOk [] 0).2.overallProgress = 0 := by
  have h100 : (runProcessingPipeline optsExtractOnly envAllOk [fileA] 0).2.overallProgress =
      stepOverall 1 1 := rfl
  have hs : stepOverall 1 1 = 100 := by norm_num [stepOverall]
  have hc : (cancelProcessing (runProcessingPipeline optsExtractOnly envAllOk [fileA] 0).2
      99).overallProgress =
      (runProcessingPipeline optsExtractOnly envAllOk [fileA] 0).2.overallProgress := rfl
  refine ⟨by decide, ?_, by decide, by decide, ?_, by decide, rfl⟩
  · rw [h100, hs]
  · rw [hc, h100, hs]

/-- C3 witness: the amended theorem applied to a concrete one-step run
whose status is `complete`, giving `overallProgress` exactly 100. -/
theorem C3_progress_witness :
    (runProcessingPipeline optsExtractOnly envAllOk [fileA] 0).2.status =
      RunStatus.complete ∧
    (runProcessingPipeline optsExtractOnly envAllOk [fileA] 0).2.overallProgress = 100 ∧
    (runProcessingPipeline optsExtractOnly envCombineFails [fileA] 0).2.overallProgress
      = 100 := by
  have h := C3_progress optsExtractOnly envAllOk [fileA] 0
  refine ⟨by decide, h.2.2.2.1 (by decide) (by decide), ?_⟩
  have h2 := C3_progress optsExtractOnly envCombineFails [fileA] 0
  exact h2.2.2.2.1 (by decide) (by decide)

theorem bodyError_analyze (opts : PipelineOptions) (env : PipelineEnv) (m : Nat) :
    bodyError opts env m "analyze" = none := by
  unfold bodyError stepBody
  rw [if_neg (by decide), if_pos rfl]

theorem bodyError_extract_eq (opts : PipelineOptions) (env : PipelineEnv) (m : Nat) :
    bodyError opts env m "extract" = extractError env m := by
  unfold bodyError stepBody extractError
  rw [if_pos rfl]
  cases h : (extractLoopAux m 0 (alignedExtracts env m)).2 <;> simp [h]

theorem bodyError_combine_eq (opts : PipelineOptions) (env : PipelineEnv) (m : Nat)
    (hopt : opts.hasCombinationOptions = true) (e : String)
    (hc : env.combine = Except.error e) :
    bodyError opts env m "combine" = some e := by
  unfold bodyError stepBody
  rw [if_neg (by decide), if_neg (by decide), if_pos rfl, if_pos hopt, hc]

/-! ### C2 — pipeline fail-fast versus analyze fail-soft -/

/-- C2 (amended): when the body of the `k`-th step throws (the first step
whose body fails), that step is marked `error` carrying the thrown message
with an end timestamp, the run ends `error` with an end timestamp, the
steps before it are `complete`, and the steps after it remain — in every
observable state of the run — exactly the untouched pending records; when
no step body throws the run completes with every step `complete`.  The
step bodies that can throw are per-file extraction (the extract step) and
the external combine call (the combine step, when combination options are
present); the analyze step's body never throws — per-file provider analysis
failures are caught inside `analyzeFiles` — and the whole run is
independent of the analysis outcomes. -/
theorem C2_failfast (opts : PipelineOptions) (env : PipelineEnv)
    (files : List UploadedFile) (t0 : Nat) :
    (∀ k msg, firstFailure opts env files.length (mkSteps opts) = some (k, msg) →
      (runProcessingPipeline opts env files t0).2.status = RunStatus.error ∧
      (runProcessingPipeline opts env files t0).2.endTime.isSome = true ∧
      ∃ comp failStep after errStep,
        (mkSteps opts).drop k = failStep :: after ∧
        (runProcessingPipeline opts env files t0).2.steps = comp ++ errStep :: after ∧
        comp.length = k ∧
        (∀ s ∈ comp, s.status = StepStatus.complete) ∧
        errStep.id = failStep.id ∧
        errStep.status = StepStatus.error ∧
        errStep.error = some msg ∧
        errStep.endTime.isSome = true ∧
        (∀ snap ∈ (runProcessingPipeline opts env files t0).1,
          List.IsSuffix after snap.steps) ∧
        (∀ s ∈ after, s.status = StepStatus.pending)) ∧
    (firstFailure opts env files.length (mkSteps opts) = none →
      (runProcessingPipeline opts env files t0).2.status = RunStatus.complete ∧
      (∀ s ∈ (runProcessingPipeline opts env files t0).2.steps,
        s.status = StepStatus.complete)) ∧
    (∀ a1 a2, runProcessingPipeline opts ⟨env.extracts, a1, env.combine⟩ files t0 =
      runProcessingPipeline opts ⟨env.extracts, a2, env.combine⟩ files t0) ∧
    bodyError opts env files.length "analyze" = none ∧
    bodyError opts env files.length "extract" = extractError env files.length ∧
    (opts.hasCombinationOptions = true → ∀ e, env.combine = Except.error e →
      bodyError opts env files.length "combine" = some e) := by
  obtain ⟨htr, hfin⟩ := runPipeline_trace opts env files t0
  have hn0 : (mkSteps opts).length =
      ([] : List PipelineStep).length + (mkSteps opts).length := by simp
  have ho0 : (pipelineInit opts files t0).overallProgress =
      stepOverall (mkSteps opts).length ([] : List PipelineStep).length := by
    simp [pipelineInit, stepOverall_zero]
  refine ⟨?_, ?_, ?_, bodyError_analyze opts env files.length,
    bodyError_extract_eq opts env files.length,
    fun hopt e hc => bodyError_combine_eq opts env files.length hopt e hc⟩
  · intro k msg hf
    obtain ⟨hstat, hov, hend, ⟨comp, failStep, after, errStep, hdrop, hsteps, hlen,
      hids, hcompl, herrid, herrstat, herrmsg, herrend⟩, htrace⟩ :=
      runLoop_error opts env (mkSteps opts).length (mkSteps opts)
        (pipelineInit opts files t0) [] (t0 + 1) k msg hn0 ho0 hf
    have hafter : (mkSteps opts).drop (k + 1) = after := by
      rw [← List.tail_drop, hdrop]
      rfl
    have haftermem : ∀ s ∈ after, s ∈ mkSteps opts := by
      intro s hs
      rw [← hafter] at hs
      exact (List.drop_suffix (k + 1) (mkSteps opts)).sublist.subset hs
    refine ⟨by rw [hfin]; exact hstat, by rw [hfin]; exact hend,
      comp, failStep, after, errStep, hdrop, ?_, hlen, hcompl, herrid, herrstat,
      herrmsg, herrend, ?_, ?_⟩
    · rw [hfin, hsteps]
      rfl
    · intro snap hsnap
      rw [htr] at hsnap
      rcases List.mem_cons.mp hsnap with h1 | h2
      · subst h1
        rw [← hafter]
        have : (pipelineInit opts files t0).steps = mkSteps opts := rfl
        rw [this]
        exact List.drop_suffix _ _
      · rw [← hafter]
        exact htrace snap h2
    · intro s hs
      exact mkSteps_pending opts s (haftermem s hs)
  · intro hf
    obtain ⟨hstat, hov, suffix, hsteps, hlen, hids, hcompl⟩ :=
      runLoop_complete opts env (mkSteps opts).length (mkSteps opts)
        (pipelineInit opts files t0) [] (t0 + 1) hn0 ho0 hf
    refine ⟨by rw [hfin]; exact hstat, ?_⟩
    intro s hs
    rw [hfin, hsteps] at hs
    exact hcompl s (by simpa using hs)
  · intro a1 a2
    have h1 := runPipeline_analyses_irrel opts env.extracts a1 a2 env.combine files t0
    exact h1

/-- C2 counterexample: in a run with steps [extract, analyze, combine]
where extraction succeeds and the provider analysis call throws
"Provider call failed", the run does NOT end in error: the analyze step's
per-file catch swallows the failure, all three steps complete, the run
status is `complete`, and the failed file simply has no analysis entry —
against the claim that the analyze step errors and combine stays pending. -/
theorem C2_analyze_swallow_counterexample :
    (runProcessingPipeline optsAllStages envAnalyzeFails [fileA] 0).2.status =
      RunStatus.complete ∧
    (runProcessingPipeline optsAllStages envAnalyzeFails [fileA] 0).2.steps.map
      (fun s => (s.id, s.status)) =
      [("extract", StepStatus.complete), ("analyze", StepStatus.complete),
        ("combine", StepStatus.complete)] ∧
    analyzeFilesRun [fileA] [Except.error "Provider call failed"] = [] := by
  refine ⟨by decide, by decide, by decide⟩

/-- C2 witness: with a throwing combine call the concrete three-step run
ends in `error`; with only a throwing provider analysis call it ends in
`complete`. -/
theorem C2_failfast_witness :
    (runProcessingPipeline optsAllStages envCombineFails [fileA] 0).2.status =
      RunStatus.error ∧
    (runProcessingPipeline optsAllStages envAnalyzeFails [fileA] 0).2.status =
      RunStatus.complete := by
  refine ⟨((C2_failfast optsAllStages envCombineFails [fileA] 0).1 2
    "combine blew up" (by decide)).1,
    ((C2_failfast optsAllStages envAnalyzeFails [fileA] 0).2.1 (by decide)).1⟩

/-! ### C5 — cancellation -/

/-- C5 (code evaluated at the failing input): `cancelProcessing` does set
status `cancelled` with an end timestamp on the published state; but for a
cancel arriving after the second snapshot of an in-flight one-step run, the
observable state sequence continues with states showing `running` again —
and finally `complete` — because the run loop never reads the cancelled
state and keeps publishing its own snapshots. -/
theorem C5_cancel_overwritten :
    (∀ p (t : Nat), (cancelProcessing p t).status = RunStatus.cancelled ∧
      (cancelProcessing p t).endTime = some t) ∧
    (observedWithCancel (runProcessingPipeline optsExtractOnly envAllOk
        [fileA] 0).1 1 99).map Pipeline.status =
      [RunStatus.running, RunStatus.running, RunStatus.cancelled,
        RunStatus.running, RunStatus.running, RunStatus.complete] := by
  refine ⟨fun p t => ⟨rfl, rfl⟩, by decide⟩
